import Mathlib

/-!
# Verification of the shopping-cart runtime validation layer

A shallow embedding of the repository's runtime type-guard and cart-state
code (`src/utilities/typeGuards.ts`, `src/context/ShoppingCartContext.tsx`,
`src/hooks/useLocalStorage.ts`) together with proofs about it.

JavaScript values are modelled by the inductive `JSValue`; JavaScript
numbers by `JSNum` (NaN, signed infinities, and finite values as rationals:
every finite double is a rational, and the only numeric operations the
embedded code performs — strict equality, `Number.isInteger`,
`Number.isFinite`, comparisons with 0 and adding/subtracting 1 — are exact
on the values this program manipulates).  Functions are opaque callables
(constructor `callable`): the guards only ever test `typeof f === "function"`.
Console logging is an observability side effect with no bearing on any
return value, so it is dropped from the embedding.
-/

namespace ShopCart

/-- A JavaScript number: NaN, a signed infinity, or a finite value. -/
inductive JSNum where
  | nan
  | inf (pos : Bool)
  | fin (q : ℚ)
deriving DecidableEq, Repr

/-- Strict equality `===` restricted to numbers: `NaN` is equal to nothing
(itself included); otherwise value equality. -/
def jsEq : JSNum → JSNum → Bool
  | .nan, _ => false
  | _, .nan => false
  | a, b => decide (a = b)

/-- `Number.isInteger`. -/
def JSNum.isInt : JSNum → Bool
  | .fin q => q.den == 1
  | _ => false

/-- `Number.isFinite`. -/
def JSNum.isFiniteNum : JSNum → Bool
  | .fin _ => true
  | _ => false

/-- `n > 0` on numbers (`NaN > 0` is false). -/
def JSNum.gtZero : JSNum → Bool
  | .fin q => decide (0 < q)
  | .inf pos => pos
  | .nan => false

/-- `n < 0` on numbers (`NaN < 0` is false). -/
def JSNum.ltZero : JSNum → Bool
  | .fin q => decide (q < 0)
  | .inf pos => !pos
  | .nan => false

/-- `n >= 0` on numbers (`NaN >= 0` is false). -/
def JSNum.geZero : JSNum → Bool
  | .fin q => decide (0 ≤ q)
  | .inf pos => pos
  | .nan => false

/-- Rendering of a number for error messages (mirrors JS template strings
far enough for our purposes; the exact text is never load-bearing). -/
def JSNum.toDisplay : JSNum → String
  | .nan => "NaN"
  | .inf true => "Infinity"
  | .inf false => "-Infinity"
  | .fin q => toString q

/-- A JavaScript value as it can reach the validation layer. -/
inductive JSValue where
  | null
  | undefined
  | boolean (b : Bool)
  | number (n : JSNum)
  | string (s : String)
  | array (elems : List JSValue)
  | object (fields : List (String × JSValue))
  | callable

/-- `typeof`. -/
def typeofJS : JSValue → String
  | .null => "object"
  | .undefined => "undefined"
  | .boolean _ => "boolean"
  | .number _ => "number"
  | .string _ => "string"
  | .array _ => "object"
  | .object _ => "object"
  | .callable => "function"

/-- `value === null`. -/
def isNullJS : JSValue → Bool
  | .null => true
  | _ => false

/-- `Array.isArray`. -/
def isArrayJS : JSValue → Bool
  | .array _ => true
  | _ => false

/-- Decimal value of an all-digit character list (helper for the canonical
array-index test; `String.toNat?` itself does not reduce in the kernel). -/
def digitsVal : List Char → Nat → Option Nat
  | [], acc => some acc
  | c :: cs, acc =>
      if c.isDigit then digitsVal cs (acc * 10 + (c.toNat - 48)) else none

/-- A canonical array index string: a nonempty digit string with no leading
zero (except "0" itself). -/
def parseIndex (s : String) : Option Nat :=
  match s.data with
  | [] => none
  | ['0'] => some 0
  | '0' :: _ :: _ => none
  | cs => digitsVal cs 0

/-- The `key in value` test, for the value kinds on which the embedded code
performs it (objects and arrays; arrays expose `length` and their canonical
index strings). -/
def hasField : JSValue → String → Bool
  | .object fields, key => (fields.lookup key).isSome
  | .array elems, key =>
      key == "length" ||
        (match parseIndex key with
         | some i => i < elems.length
         | none => false)
  | _, _ => false

/-- Property access `value.key`, yielding `undefined` when absent. -/
def getField : JSValue → String → JSValue
  | .object fields, key => (fields.lookup key).getD .undefined
  | .array elems, key =>
      if key == "length" then .number (.fin elems.length)
      else
        (match parseIndex key with
         | some i => elems.getD i .undefined
         | none => .undefined)
  | _, _ => .undefined

/-- `typeof value.key === "number"` after a field access. -/
def fieldIsNumber (v : JSValue) (key : String) : Bool :=
  typeofJS (getField v key) == "number"

/-- Lift a numeric test through a field access: false when the field is not
a number at all. -/
def numTest (p : JSNum → Bool) : JSValue → Bool
  | .number n => p n
  | _ => false

/-- `isCartItem` from `src/utilities/typeGuards.ts`: a non-null object with
`id` and `quantity` fields, both numbers, `quantity > 0`, and both
`Number.isInteger`. -/
def isCartItem (value : JSValue) : Bool :=
  typeofJS value == "object" &&
  !isNullJS value &&
  hasField value "id" &&
  hasField value "quantity" &&
  fieldIsNumber value "id" &&
  fieldIsNumber value "quantity" &&
  numTest JSNum.gtZero (getField value "quantity") &&
  numTest JSNum.isInt (getField value "id") &&
  numTest JSNum.isInt (getField value "quantity")

/-- `isCartItemArray` from `src/utilities/typeGuards.ts`: an array whose
elements all satisfy `isCartItem` (the source filters the invalid elements,
warns about each, and requires the filtered list to be empty). -/
def isCartItemArray (value : JSValue) : Bool :=
  match value with
  | .array elems => (elems.filter (fun item => !isCartItem item)).length == 0
  | _ => false

/-- A positive-integer number value, as the spec's words describe a field:
"a positive integer". -/
def isPosIntJS (v : JSValue) : Bool :=
  numTest (fun n => n.isInt && n.gtZero) v

/-- An integer number value (sign unconstrained). -/
def isIntJS (v : JSValue) : Bool :=
  numTest JSNum.isInt v

/-- The claimed characterisation of `isCartLine`, written from the spec's
words: a non-null object whose `id` field is a positive integer and whose
`quantity` field is a positive integer. -/
def isCartLineClaim (v : JSValue) : Bool :=
  typeofJS v == "object" && !isNullJS v &&
  isPosIntJS (getField v "id") && isPosIntJS (getField v "quantity")

/-- The amended characterisation: a non-null object whose `id` field is an
integer (not necessarily positive) and whose `quantity` field is a positive
integer. -/
def isCartLineAmended (v : JSValue) : Bool :=
  typeofJS v == "object" && !isNullJS v &&
  isIntJS (getField v "id") && isPosIntJS (getField v "quantity")

/-- The six operation names `isShoppingCartContext` requires, in the order
the source lists them. -/
def requiredMethods : List String :=
  ["openCart", "closeCart", "getItemQuantity",
   "increaseCartQuantity", "decreaseCartQuantity", "removeFromCart"]

/-- `isShoppingCartContext` from `src/utilities/typeGuards.ts`: a non-null
object where each of the six required methods is present and a function,
`cartQuantity` is present, a number, finite and not negative, and
`cartItems` is present, an array, and passes `isCartItemArray`.  The
source's sequence of early `return false` checks is an and-chain. -/
def isShoppingCartContext (value : JSValue) : Bool :=
  (typeofJS value == "object" && !isNullJS value) &&
  (requiredMethods.all fun m =>
    hasField value m && typeofJS (getField value m) == "function") &&
  (hasField value "cartQuantity" &&
    typeofJS (getField value "cartQuantity") == "number" &&
    numTest JSNum.isFiniteNum (getField value "cartQuantity") &&
    !numTest JSNum.ltZero (getField value "cartQuantity")) &&
  (hasField value "cartItems" &&
    isArrayJS (getField value "cartItems") &&
    isCartItemArray (getField value "cartItems"))

/-- The claimed characterisation of `isCartContext`, written from the spec's
words: a non-null object exposing all six operations as callables, a
total-quantity field that is a non-negative finite number, and a lines
field satisfying the cart-line-array predicate. -/
def isCartContextClaim (v : JSValue) : Bool :=
  typeofJS v == "object" && !isNullJS v &&
  (requiredMethods.all fun m => typeofJS (getField v m) == "function") &&
  numTest (fun n => n.isFiniteNum && n.geZero) (getField v "cartQuantity") &&
  isCartItemArray (getField v "cartItems")

/-- The spec's scenario-B value: all six operations present as callables,
`cartItems` an empty array, but `cartQuantity` equal to `-1`. -/
def scenarioBContext : JSValue :=
  JSValue.object
    [("openCart", .callable), ("closeCart", .callable),
     ("getItemQuantity", .callable), ("increaseCartQuantity", .callable),
     ("decreaseCartQuantity", .callable), ("removeFromCart", .callable),
     ("cartQuantity", .number (.fin (-1))), ("cartItems", .array [])]

/-- A typed cart line as the provider manipulates it (interface `CartItem`
in `src/utilities/typeGuards.ts`): a numeric id and a numeric quantity. -/
structure CartItem where
  id : JSNum
  quantity : JSNum
deriving DecidableEq, Repr

/-- The structural bound `T extends { id: number }` of the generic lookup
helpers: any record type carrying a numeric id. -/
class HasId (α : Type) where
  idOf : α → JSNum

instance : HasId CartItem := ⟨CartItem.id⟩

/-- `isDefined` from `src/utilities/typeGuards.ts`; the two absent
sentinels (`null` and `undefined`) are both modelled by `Option.none`. -/
def isDefined (value : Option α) : Bool :=
  value.isSome

/-- `findById` from `src/utilities/typeGuards.ts`:
`items.find(item => item.id === id)`. -/
def findById [HasId α] (items : List α) (id : JSNum) : Option α :=
  items.find? fun item => jsEq (HasId.idOf item) id

/-- `findByIdOrThrow` from `src/utilities/typeGuards.ts`: the same lookup,
then `throw` when the result is not defined, modelled by `Except.error`
(the `match` is the source's `if (!isDefined(item)) throw ...; return item`). -/
def findByIdOrThrow [HasId α] (items : List α) (id : JSNum) (itemType : String) :
    Except String α :=
  match items.find? (fun item => jsEq (HasId.idOf item) id) with
  | some item => Except.ok item
  | none => Except.error (itemType ++ " with id " ++ id.toDisplay ++ " not found")

/-- `findByIdOrDefault` from `src/utilities/typeGuards.ts`: the same lookup;
`isDefined(item) ? item : defaultValue`. -/
def findByIdOrDefault [HasId α] (items : List α) (id : JSNum) (defaultValue : α) : α :=
  match items.find? (fun item => jsEq (HasId.idOf item) id) with
  | some item => item
  | none => defaultValue

/-- `hasItemWithId` from `src/utilities/typeGuards.ts`:
`items.some(item => item.id === id)`. -/
def hasItemWithId [HasId α] (items : List α) (id : JSNum) : Bool :=
  items.any fun item => jsEq (HasId.idOf item) id

/-- The first element of the collection whose id matches the given
identifier, written from the claims' words (reference function the source
lookups are compared against). -/
def firstById [HasId α] : List α → JSNum → Option α
  | [], _ => none
  | x :: xs, id => if jsEq (HasId.idOf x) id then some x else firstById xs id

/-- JS numeric addition, on the fragment the cart code uses. -/
def jsAdd : JSNum → JSNum → JSNum
  | .nan, _ => .nan
  | _, .nan => .nan
  | .inf a, .inf b => if a == b then .inf a else .nan
  | .inf a, .fin _ => .inf a
  | .fin _, .inf b => .inf b
  | .fin p, .fin q => .fin (p + q)

/-- JS numeric subtraction, on the fragment the cart code uses. -/
def jsSub : JSNum → JSNum → JSNum
  | .nan, _ => .nan
  | _, .nan => .nan
  | .inf a, .inf b => if a == b then .nan else .inf a
  | .inf a, .fin _ => .inf a
  | .fin _, .inf b => .inf (!b)
  | .fin p, .fin q => .fin (p - q)

/-- The updater passed to `setCartItems` by `increaseCartQuantity(id)` in
`src/context/ShoppingCartContext.tsx`: append `{id, quantity: 1}` when no
line has the id, otherwise increment the matching line's quantity. -/
def increaseCartQuantity (id : JSNum) (currItems : List CartItem) : List CartItem :=
  if !hasItemWithId currItems id then
    currItems ++ [{ id := id, quantity := .fin 1 }]
  else
    currItems.map fun item =>
      if jsEq item.id id then { item with quantity := jsAdd item.quantity (.fin 1) }
      else item

/-- The updater passed to `setCartItems` by `decreaseCartQuantity(id)` in
`src/context/ShoppingCartContext.tsx`: when the looked-up line's quantity
is strictly equal to 1, drop every line with the id; otherwise decrement
the matching line's quantity (the `match` is the source's
`isDefined(item) && item.quantity === 1`). -/
def decreaseCartQuantity (id : JSNum) (currItems : List CartItem) : List CartItem :=
  if (match findById currItems id with
      | some item => jsEq item.quantity (.fin 1)
      | none => false) then
    currItems.filter fun item => !jsEq item.id id
  else
    currItems.map fun item =>
      if jsEq item.id id then { item with quantity := jsSub item.quantity (.fin 1) }
      else item

/-- The updater passed to `setCartItems` by `removeFromCart(id)` in
`src/context/ShoppingCartContext.tsx`. -/
def removeFromCart (id : JSNum) (currItems : List CartItem) : List CartItem :=
  currItems.filter fun item => !jsEq item.id id

/-- The CartCollection invariant from the spec's data model: line ids are
pairwise distinct. -/
def DistinctIds (c : List CartItem) : Prop :=
  (c.map CartItem.id).Nodup

/-- Lift a string test through a field access: false when the field is not
a string. -/
def strTest (p : String → Bool) : JSValue → Bool
  | .string s => p s
  | _ => false

/-- `str.trim().length > 0`: the string has at least one non-whitespace
character, modelled on the character list (`String.trim` itself is opaque
to the kernel; stripping whitespace from both ends leaves a non-empty
string exactly when some character is non-whitespace). -/
def hasNonWhitespace (s : String) : Bool :=
  s.data.any fun c => !c.isWhitespace

/-- `isStoreItem` from `src/utilities/typeGuards.ts`: a non-null object
with `id`/`name`/`price`/`imgUrl` fields of types number/string/number/
string, where `id` is a positive integer, `name` and `imgUrl` are
non-blank, and `price` is non-negative. -/
def isStoreItem (value : JSValue) : Bool :=
  typeofJS value == "object" &&
  !isNullJS value &&
  hasField value "id" &&
  hasField value "name" &&
  hasField value "price" &&
  hasField value "imgUrl" &&
  fieldIsNumber value "id" &&
  typeofJS (getField value "name") == "string" &&
  fieldIsNumber value "price" &&
  typeofJS (getField value "imgUrl") == "string" &&
  numTest JSNum.isInt (getField value "id") &&
  numTest JSNum.gtZero (getField value "id") &&
  strTest hasNonWhitespace (getField value "name") &&
  numTest JSNum.geZero (getField value "price") &&
  strTest hasNonWhitespace (getField value "imgUrl")

/-- The numeric id of a store item, for the duplicate-id check
(`value.map(item => item.id)`); at the point the source runs it every
element has passed `isStoreItem`, so the `id` field is a number. -/
def storeIdNum (x : JSValue) : JSNum :=
  match getField x "id" with
  | .number n => n
  | _ => JSNum.nan

/-- `isStoreItemArray` from `src/utilities/typeGuards.ts`: an array,
rejected when empty, when any element fails `isStoreItem`, or when the ids
are not pairwise distinct (`new Set(ids).size !== ids.length`; on the
number ids present here `Set` membership is plain value equality, and
`List.dedup` plays the `Set`'s role). -/
def isStoreItemArray (value : JSValue) : Bool :=
  match value with
  | .array elems =>
      if elems.length == 0 then false
      else if (elems.filter fun item => !isStoreItem item).length > 0 then false
      else
        let ids := elems.map storeIdNum
        ids.dedup.length == ids.length
  | _ => false

/-- The claimed characterisation of `isCatalogRecordArray`, from the spec's
words: a non-empty array whose elements all satisfy the catalog-record
predicate and whose ids are pairwise distinct. -/
def catalogArrayClaim (v : JSValue) : Prop :=
  ∃ elems, v = JSValue.array elems ∧ elems ≠ [] ∧
    (∀ x ∈ elems, isStoreItem x = true) ∧ (elems.map storeIdNum).Nodup

/-- The result of `localStorage.getItem(key)` as the hook's initializer can
observe it: a stored string, absence (`null`), or a throwing storage access
(the storage side-channel is fallible by throwing). -/
inductive StorageRead where
  | value (s : String)
  | absent
  | throws (msg : String)

/-- The hook's `initialValue: T | (() => T)`: a direct value or a lazy
initializer, discriminated at run time by callability. -/
inductive InitialValue where
  | val (v : JSValue)
  | lazy (f : Unit → JSValue)

/-- The function-vs-value discrimination
`typeof initialValue === 'function' ? initialValue() : initialValue`. -/
def resolveInitial : InitialValue → JSValue
  | .val v => v
  | .lazy f => f ()

/-- The read path of `useLocalStorage` in `src/hooks/useLocalStorage.ts`
(the `useState` initializer).  `JSON.parse` is a host built-in, passed as
the oracle `parse`; a parse error and a throwing storage read are the two
exception sources, both caught by the initializer's `try`/`catch`, which
resolves and returns the initial value.  A parsed value failing the
supplied type guard falls through (after a logged warning) to the initial
value; with no guard the parsed value is returned as-is. -/
def useLocalStorageRead (stored : StorageRead)
    (parse : String → Except String JSValue)
    (typeGuard : Option (JSValue → Bool))
    (initialValue : InitialValue) : JSValue :=
  match stored with
  | .throws _ => resolveInitial initialValue
  | .absent => resolveInitial initialValue
  | .value s =>
      match parse s with
      | .error _ => resolveInitial initialValue
      | .ok parsed =>
          match typeGuard with
          | some guard =>
              if guard parsed then parsed else resolveInitial initialValue
          | none => parsed

@[simp] theorem parseIndex_id : parseIndex "id" = none := rfl

@[simp] theorem parseIndex_quantity : parseIndex "quantity" = none := rfl

theorem getField_of_hasField_eq_false (v : JSValue) (key : String)
    (h : hasField v key = false) : getField v key = .undefined := by
  cases v with
  | object fields =>
      simp only [hasField] at h
      have h2 : List.lookup key fields = none := Option.not_isSome_iff_eq_none.mp (by simp [h])
      simp [getField, h2]
  | array elems =>
      simp only [hasField, Bool.or_eq_false_iff] at h
      obtain ⟨h1, h2⟩ := h
      simp only [getField, h1, if_false, Bool.false_eq_true]
      cases hk : parseIndex key with
      | none => simp
      | some i =>
          simp only [hk] at h2 ⊢
          simp only [decide_eq_false_iff_not, Nat.not_lt] at h2
          simp [List.getD_eq_getElem?_getD, List.getElem?_eq_none (by simpa using h2)]
  | null => rfl
  | undefined => rfl
  | boolean b => rfl
  | number n => rfl
  | string s => rfl
  | callable => rfl

theorem hasField_of_getField_object (fields : List (String × JSValue)) (key : String)
    (h : getField (.object fields) key ≠ .undefined) :
    hasField (.object fields) key = true := by
  by_cases hf : hasField (.object fields) key = true
  · exact hf
  · exact absurd (getField_of_hasField_eq_false _ _ (by simpa using hf)) h

/-- C1, counterexample: the code's `isCartItem` accepts an object whose `id`
is the integer `0`, which is not a positive integer, so `isCartItem` is not
equivalent to the claimed "non-null object with positive-integer `id` and
positive-integer `quantity`" predicate. -/
theorem isCartItem_claim_counterexample :
    isCartItem (JSValue.object
      [("id", JSValue.number (JSNum.fin 0)), ("quantity", JSValue.number (JSNum.fin 1))]) = true ∧
    isCartLineClaim (JSValue.object
      [("id", JSValue.number (JSNum.fin 0)), ("quantity", JSValue.number (JSNum.fin 1))]) = false := by
  constructor
  · rfl
  · rfl

/-- C1, amended: for every value `v`, `isCartItem v` is true iff `v` is a
non-null object whose `id` field is an integer (sign unconstrained) and
whose `quantity` field is a positive integer. -/
theorem isCartItem_iff_amended (v : JSValue) : isCartItem v = isCartLineAmended v := by
  cases v with
  | object fields =>
      cases hi : List.lookup "id" fields with
      | none =>
          simp [isCartItem, isCartLineAmended, hasField, getField, fieldIsNumber, numTest,
            isIntJS, isPosIntJS, typeofJS, isNullJS, hi]
      | some x =>
          cases hq : List.lookup "quantity" fields with
          | none =>
              simp [isCartItem, isCartLineAmended, hasField, getField, fieldIsNumber, numTest,
                isIntJS, isPosIntJS, typeofJS, isNullJS, hi, hq]
          | some y =>
              simp only [isCartItem, isCartLineAmended, hasField, getField, fieldIsNumber,
                isIntJS, isPosIntJS, typeofJS, isNullJS, hi, hq, Option.getD_some,
                Option.isSome_some]
              cases x <;> cases y <;>
                simp [numTest, typeofJS, Bool.and_comm, Bool.and_assoc, Bool.and_left_comm]
  | array elems =>
      simp [isCartItem, isCartLineAmended, hasField, getField, fieldIsNumber, numTest,
        isIntJS, isPosIntJS, typeofJS, isNullJS]
  | null => rfl
  | undefined => rfl
  | boolean b => rfl
  | number n => rfl
  | string s => rfl
  | callable => rfl

theorem method_conjunct_eq (v : JSValue) (m : String) :
    (hasField v m && (typeofJS (getField v m) == "function")) =
      (typeofJS (getField v m) == "function") := by
  by_cases h : hasField v m = true
  · simp [h]
  · have hg := getField_of_hasField_eq_false v m (by simpa using h)
    simp only [Bool.not_eq_true] at h
    simp [h, hg, typeofJS]

theorem quantity_conjunct_eq (v : JSValue) :
    (hasField v "cartQuantity" &&
      typeofJS (getField v "cartQuantity") == "number" &&
      numTest JSNum.isFiniteNum (getField v "cartQuantity") &&
      !numTest JSNum.ltZero (getField v "cartQuantity")) =
    numTest (fun n => n.isFiniteNum && n.geZero) (getField v "cartQuantity") := by
  by_cases h : hasField v "cartQuantity" = true
  · simp only [h, Bool.true_and]
    cases getField v "cartQuantity" with
    | number n =>
        cases n with
        | nan => simp [numTest, typeofJS, JSNum.isFiniteNum, JSNum.ltZero, JSNum.geZero]
        | inf pos =>
            cases pos <;>
              simp [numTest, typeofJS, JSNum.isFiniteNum, JSNum.ltZero, JSNum.geZero]
        | fin q =>
            by_cases hq : q < 0
            · simp [numTest, typeofJS, JSNum.isFiniteNum, JSNum.ltZero, JSNum.geZero,
                hq, not_le.mpr hq]
            · simp [numTest, typeofJS, JSNum.isFiniteNum, JSNum.ltZero, JSNum.geZero,
                hq, not_lt.mp hq]
    | null => simp [numTest, typeofJS]
    | undefined => simp [numTest, typeofJS]
    | boolean b => simp [numTest, typeofJS]
    | string s => simp [numTest, typeofJS]
    | array es => simp [numTest, typeofJS]
    | object fs => simp [numTest, typeofJS]
    | callable => simp [numTest, typeofJS]
  · have hg := getField_of_hasField_eq_false v "cartQuantity" (by simpa using h)
    simp only [Bool.not_eq_true] at h
    simp [h, hg, numTest]

theorem items_conjunct_eq (v : JSValue) :
    (hasField v "cartItems" &&
      isArrayJS (getField v "cartItems") &&
      isCartItemArray (getField v "cartItems")) =
    isCartItemArray (getField v "cartItems") := by
  by_cases h : hasField v "cartItems" = true
  · simp only [h, Bool.true_and]
    cases getField v "cartItems" <;> simp [isArrayJS, isCartItemArray]
  · have hg := getField_of_hasField_eq_false v "cartItems" (by simpa using h)
    simp only [Bool.not_eq_true] at h
    simp [h, hg, isCartItemArray]

/-- C2: `isShoppingCartContext` returns true exactly on non-null objects
exposing the six operations as callables, a non-negative finite numeric
`cartQuantity`, and a `cartItems` value passing the cart-line-array
predicate; in particular it rejects the empty object and the otherwise
complete context whose `cartQuantity` is `-1`. -/
theorem isShoppingCartContext_iff_claim :
    (∀ v, isShoppingCartContext v = isCartContextClaim v) ∧
    isShoppingCartContext (JSValue.object []) = false ∧
    isShoppingCartContext scenarioBContext = false := by
  refine ⟨fun v => ?_, rfl, rfl⟩
  rw [isShoppingCartContext, isCartContextClaim, quantity_conjunct_eq, items_conjunct_eq]
  simp only [requiredMethods, List.all_cons, List.all_nil, method_conjunct_eq,
    Bool.and_true, Bool.and_assoc]

@[simp] theorem idOf_cartItem (x : CartItem) : HasId.idOf x = x.id := rfl

theorem jsEq_eq_of_true {a b : JSNum} (h : jsEq a b = true) : a = b := by
  cases a <;> cases b <;> simp_all [jsEq]

theorem jsEq_self {a : JSNum} (h : a ≠ JSNum.nan) : jsEq a a = true := by
  cases a <;> simp_all [jsEq]

theorem findById_eq_firstById [HasId α] (items : List α) (id : JSNum) :
    findById items id = firstById items id := by
  induction items with
  | nil => rfl
  | cons x xs ih =>
      by_cases h : jsEq (HasId.idOf x) id = true
      · simp [findById, firstById, List.find?, h]
      · have h' : jsEq (HasId.idOf x) id = false := by simpa using h
        simp only [findById, firstById, List.find?, h']
        simpa [findById] using ih

theorem find?_eq_some_of_unique {α : Type} (p : α → Bool) :
    ∀ (l : List α) (x : α), x ∈ l → p x = true →
      (∀ y ∈ l, p y = true → y = x) → l.find? p = some x := by
  intro l
  induction l with
  | nil => intro x hx _ _; simp at hx
  | cons a as ih =>
      intro x hx hpx huniq
      by_cases hpa : p a = true
      · have ha : a = x := huniq a (by simp) hpa
        subst ha
        simp [List.find?, hpa]
      · have hpa' : p a = false := by simpa using hpa
        simp only [List.find?, hpa']
        have hxas : x ∈ as := by
          rcases List.mem_cons.mp hx with h | h
          · subst h; exact absurd hpx (by simp [hpa'])
          · exact h
        exact ih x hxas hpx fun y hy hpy => huniq y (List.mem_cons_of_mem _ hy) hpy

theorem distinctIds_filter (c : List CartItem) (p : CartItem → Bool) (hc : DistinctIds c) :
    DistinctIds (c.filter p) :=
  List.Nodup.sublist (List.Sublist.map _ (List.filter_sublist _)) hc

theorem map_update_preserves_ids (c : List CartItem) (g : CartItem → CartItem)
    (hg : ∀ x, (g x).id = x.id) :
    (c.map g).map CartItem.id = c.map CartItem.id := by
  rw [List.map_map]
  exact List.map_congr_left fun x _ => hg x

/-- C3: starting from a collection with pairwise-distinct line ids, each of
`increaseCartQuantity`, `decreaseCartQuantity` and `removeFromCart` yields a
collection whose line ids are still pairwise distinct (for any non-NaN
identifier, which covers every genuine identifier). -/
theorem mutations_preserve_distinct_ids (c : List CartItem) (id : JSNum)
    (hc : DistinctIds c) (hid : id ≠ JSNum.nan) :
    DistinctIds (increaseCartQuantity id c) ∧
    DistinctIds (decreaseCartQuantity id c) ∧
    DistinctIds (removeFromCart id c) := by
  have hmap : ∀ upd : JSNum → JSNum,
      DistinctIds (c.map fun item =>
        if jsEq item.id id then { item with quantity := upd item.quantity } else item) := by
    intro upd
    unfold DistinctIds
    rw [map_update_preserves_ids]
    · exact hc
    · intro x
      by_cases hx : jsEq x.id id = true <;> simp [hx]
  refine ⟨?_, ?_, distinctIds_filter c _ hc⟩
  · unfold increaseCartQuantity
    by_cases h : hasItemWithId c id = true
    · simpa [h] using hmap fun q => jsAdd q (.fin 1)
    · have h' : hasItemWithId c id = false := by simpa using h
      simp only [h', Bool.not_false, if_true]
      unfold DistinctIds
      rw [List.map_append, List.nodup_append]
      refine ⟨hc, by simp, ?_⟩
      intro a ha hb
      simp only [List.map_cons, List.map_nil, List.mem_singleton] at hb
      obtain ⟨x, hxc, hxid⟩ := List.mem_map.mp ha
      have hx : jsEq x.id id = true := by rw [hxid, hb]; exact jsEq_self hid
      have hnone := List.any_eq_false.mp (by simpa [hasItemWithId] using h') x hxc
      simp [hx] at hnone
  · unfold decreaseCartQuantity
    cases hfind : findById c id with
    | none => simpa [hfind] using hmap fun q => jsSub q (.fin 1)
    | some it =>
        by_cases h1 : jsEq it.quantity (.fin 1) = true
        · simp only [hfind, h1, if_true]
          exact distinctIds_filter c _ hc
        · have h1' : jsEq it.quantity (.fin 1) = false := by simpa using h1
          simpa [hfind, h1'] using hmap fun q => jsSub q (.fin 1)

theorem mutations_preserve_distinct_ids_witness :
    DistinctIds (increaseCartQuantity (JSNum.fin 1) [⟨JSNum.fin 1, JSNum.fin 2⟩]) ∧
    DistinctIds (decreaseCartQuantity (JSNum.fin 1) [⟨JSNum.fin 1, JSNum.fin 2⟩]) ∧
    DistinctIds (removeFromCart (JSNum.fin 1) [⟨JSNum.fin 1, JSNum.fin 2⟩]) :=
  mutations_preserve_distinct_ids _ _ (by simp [DistinctIds]) (by decide)

/-- C4: `findByIdOrDefault` equals the first element with a matching id
when one exists and the fallback unchanged otherwise; its result is always
a real element or the fallback, never the absent sentinel (the return type
contains no such sentinel). -/
theorem findByIdOrDefault_spec {α : Type} [HasId α] (c : List α) (id : JSNum) (d : α) :
    findByIdOrDefault c id d = (firstById c id).getD d ∧
    (findByIdOrDefault c id d ∈ c ∨ findByIdOrDefault c id d = d) := by
  constructor
  · rw [← findById_eq_firstById]
    unfold findByIdOrDefault findById
    cases List.find? (fun item => jsEq (HasId.idOf item) id) c <;> rfl
  · unfold findByIdOrDefault
    cases hfind : List.find? (fun item => jsEq (HasId.idOf item) id) c with
    | none => exact Or.inr rfl
    | some x => exact Or.inl (List.mem_of_find?_eq_some hfind)

/-- C5: on a distinct-id collection with no zero quantities, decreasing a
present line whose quantity is exactly 1 removes that line entirely (no
line with the id remains, every other line survives, nothing new appears)
and the result contains no line with quantity 0. -/
theorem decrease_removes_quantity_one_line (c : List CartItem) (id : JSNum) (l : CartItem)
    (hd : DistinctIds c) (hq : ∀ x ∈ c, x.quantity ≠ JSNum.fin 0)
    (hl : l ∈ c) (hlid : jsEq l.id id = true) (hl1 : l.quantity = JSNum.fin 1) :
    l ∉ decreaseCartQuantity id c ∧
    (∀ x ∈ decreaseCartQuantity id c, jsEq x.id id = false) ∧
    (∀ x ∈ c, jsEq x.id id = false → x ∈ decreaseCartQuantity id c) ∧
    (∀ x ∈ decreaseCartQuantity id c, x ∈ c ∧ x.quantity ≠ JSNum.fin 0) := by
  have huniq : ∀ y ∈ c, jsEq y.id id = true → y = l := by
    intro y hy hyid
    have h1 : y.id = id := jsEq_eq_of_true hyid
    have h2 : l.id = id := jsEq_eq_of_true hlid
    exact List.inj_on_of_nodup_map hd hy hl (by rw [h1, h2])
  have hfind : findById c id = some l := by
    unfold findById
    exact find?_eq_some_of_unique _ c l hl (by simpa using hlid)
      fun y hy hpy => huniq y hy (by simpa using hpy)
  have hdec : decreaseCartQuantity id c = c.filter fun item => !jsEq item.id id := by
    simp [decreaseCartQuantity, hfind, hl1, jsEq]
  rw [hdec]
  refine ⟨?_, ?_, ?_, ?_⟩
  · intro hmem
    have := (List.mem_filter.mp hmem).2
    simp [hlid] at this
  · intro x hx
    have := (List.mem_filter.mp hx).2
    simpa using this
  · intro x hx hxid
    exact List.mem_filter.mpr ⟨hx, by simp [hxid]⟩
  · intro x hx
    have hxc := (List.mem_filter.mp hx).1
    exact ⟨hxc, hq x hxc⟩

theorem decrease_removes_quantity_one_line_witness :
    (⟨JSNum.fin 1, JSNum.fin 1⟩ : CartItem) ∉
      decreaseCartQuantity (JSNum.fin 1)
        [⟨JSNum.fin 1, JSNum.fin 1⟩, ⟨JSNum.fin 2, JSNum.fin 3⟩] :=
  (decrease_removes_quantity_one_line
    [⟨JSNum.fin 1, JSNum.fin 1⟩, ⟨JSNum.fin 2, JSNum.fin 3⟩] (JSNum.fin 1)
    ⟨JSNum.fin 1, JSNum.fin 1⟩
    (by simp [DistinctIds]) (by decide) (by decide) (by decide) rfl).1

/-- C6: `findByIdOrThrow` reports an error exactly when `hasItemWithId` is
false, and when it succeeds it returns the first element whose id
matches. -/
theorem findByIdOrThrow_error_iff {α : Type} [HasId α] (c : List α) (id : JSNum)
    (label : String) :
    ((∃ msg, findByIdOrThrow c id label = Except.error msg) ↔
      hasItemWithId c id = false) ∧
    (∀ x, findByIdOrThrow c id label = Except.ok x → firstById c id = some x) := by
  unfold findByIdOrThrow hasItemWithId
  cases hfind : List.find? (fun item => jsEq (HasId.idOf item) id) c with
  | none =>
      refine ⟨⟨fun _ => ?_,
        fun _ => ⟨label ++ " with id " ++ id.toDisplay ++ " not found", by simp [hfind]⟩⟩,
        fun x hx => ?_⟩
      · rw [List.any_eq_false]
        intro y hy
        simpa using List.find?_eq_none.mp hfind y hy
      · simp [hfind] at hx
  | some y =>
      have hy := List.find?_some hfind
      have hymem := List.mem_of_find?_eq_some hfind
      refine ⟨⟨fun hmsg => ?_, fun hfalse => ?_⟩, fun x hx => ?_⟩
      · obtain ⟨msg, hmsg⟩ := hmsg
        simp [hfind] at hmsg
      · have := List.any_eq_false.mp hfalse y hymem
        simp_all
      · simp only [hfind] at hx
        have hxy : y = x := by
          simpa using hx
        rw [← findById_eq_firstById]
        unfold findById
        rw [hfind, hxy]

theorem findByIdOrThrow_error_iff_witness :
    ∃ msg, findByIdOrThrow ([] : List CartItem) (JSNum.fin 3) "Item" = Except.error msg :=
  (findByIdOrThrow_error_iff ([] : List CartItem) (JSNum.fin 3) "Item").1.mpr rfl

/-- C9: for a non-NaN identifier (every genuine identifier is one),
increasing then decreasing on the empty collection adds the line
`{id, quantity: 1}` and then removes it, leaving the empty collection. -/
theorem increase_then_decrease_empty (id : JSNum) (h : id ≠ JSNum.nan) :
    increaseCartQuantity id [] = [{ id := id, quantity := JSNum.fin 1 }] ∧
    decreaseCartQuantity id (increaseCartQuantity id []) = [] := by
  have h1 : increaseCartQuantity id [] = [{ id := id, quantity := JSNum.fin 1 }] := by
    simp [increaseCartQuantity, hasItemWithId]
  have hself := jsEq_self h
  refine ⟨h1, ?_⟩
  rw [h1]
  have hfind : findById [({ id := id, quantity := JSNum.fin 1 } : CartItem)] id =
      some { id := id, quantity := JSNum.fin 1 } := by
    simp [findById, List.find?, hself]
  simp [decreaseCartQuantity, hfind, hself, jsEq, List.filter]

theorem increase_then_decrease_empty_witness :
    decreaseCartQuantity (JSNum.fin 1) (increaseCartQuantity (JSNum.fin 1) []) = [] :=
  (increase_then_decrease_empty (JSNum.fin 1) (by decide)).2

/-- C10: decreasing an identifier that no line of the collection carries
leaves the collection unchanged. -/
theorem decrease_absent_id_noop (c : List CartItem) (id : JSNum)
    (h : ∀ x ∈ c, jsEq x.id id = false) :
    decreaseCartQuantity id c = c := by
  have hfind : findById c id = none := by
    unfold findById
    rw [List.find?_eq_none]
    intro x hx
    simp [h x hx]
  simp only [decreaseCartQuantity, hfind]
  have hmapeq : (c.map fun item =>
      if jsEq item.id id then { item with quantity := jsSub item.quantity (.fin 1) }
      else item) = c := by
    calc (c.map fun item =>
          if jsEq item.id id then { item with quantity := jsSub item.quantity (.fin 1) }
          else item)
        = c.map fun x => x := List.map_congr_left fun x hx => by simp [h x hx]
      _ = c := by simp
  simpa using hmapeq

theorem decrease_absent_id_noop_witness :
    decreaseCartQuantity (JSNum.fin 1) [⟨JSNum.fin 2, JSNum.fin 5⟩] =
      [⟨JSNum.fin 2, JSNum.fin 5⟩] :=
  decrease_absent_id_noop [⟨JSNum.fin 2, JSNum.fin 5⟩] (JSNum.fin 1) (by decide)

theorem dedup_length_eq_iff {α : Type} [DecidableEq α] (l : List α) :
    (l.dedup.length == l.length) = true ↔ l.Nodup := by
  constructor
  · intro h
    have hlen : l.dedup.length = l.length := by simpa using h
    have hde : l.dedup = l := List.Sublist.eq_of_length (List.dedup_sublist l) hlen
    rw [← hde]
    exact List.nodup_dedup l
  · intro h
    simp [List.dedup_eq_self.mpr h]

/-- C8: `isStoreItemArray` rejects the empty array, rejects any array whose
ids are not pairwise distinct (however valid its records), and accepts
exactly the non-empty arrays of valid records with pairwise-distinct
ids. -/
theorem isStoreItemArray_spec :
    isStoreItemArray (JSValue.array []) = false ∧
    (∀ elems, ¬ (elems.map storeIdNum).Nodup →
      isStoreItemArray (JSValue.array elems) = false) ∧
    (∀ v, isStoreItemArray v = true ↔ catalogArrayClaim v) := by
  have hiff : ∀ v, isStoreItemArray v = true ↔ catalogArrayClaim v := by
    intro v
    cases v with
    | array elems =>
        simp only [isStoreItemArray]
        by_cases h0 : (elems.length == 0) = true
        · have : elems = [] := by simpa [List.length_eq_zero] using h0
          subst this
          simp [catalogArrayClaim]
        · have h0' : (elems.length == 0) = false := by simpa using h0
          have hne : elems ≠ [] := by
            intro hnil; subst hnil; simp at h0'
          simp only [h0', Bool.false_eq_true, if_false]
          by_cases hbad : (elems.filter fun item => !isStoreItem item).length > 0
          · simp only [if_pos hbad]
            constructor
            · intro hf; exact absurd hf (by simp)
            · rintro ⟨es, hes, -, hall, -⟩
              have hesl : elems = es := JSValue.array.inj hes
              subst hesl
              have hnil : (elems.filter fun item => !isStoreItem item) = [] := by
                rw [List.filter_eq_nil_iff]
                intro a ha
                simp [hall a ha]
              simp [hnil] at hbad
          · simp only [if_neg hbad]
            have hall : ∀ x ∈ elems, isStoreItem x = true := by
              intro x hx
              by_contra hcx
              have hx' : (!isStoreItem x) = true := by simpa using hcx
              have : x ∈ elems.filter fun item => !isStoreItem item :=
                List.mem_filter.mpr ⟨hx, hx'⟩
              have := List.length_pos.mpr (List.ne_nil_of_mem this)
              exact hbad this
            rw [dedup_length_eq_iff]
            constructor
            · intro hnd
              exact ⟨elems, rfl, hne, hall, hnd⟩
            · rintro ⟨es, hes, -, -, hnd⟩
              have hesl : elems = es := JSValue.array.inj hes
              subst hesl
              exact hnd
    | null => simp [isStoreItemArray, catalogArrayClaim]
    | undefined => simp [isStoreItemArray, catalogArrayClaim]
    | boolean b => simp [isStoreItemArray, catalogArrayClaim]
    | number n => simp [isStoreItemArray, catalogArrayClaim]
    | string s => simp [isStoreItemArray, catalogArrayClaim]
    | object fs => simp [isStoreItemArray, catalogArrayClaim]
    | callable => simp [isStoreItemArray, catalogArrayClaim]
  refine ⟨rfl, fun elems hnd => ?_, hiff⟩
  cases h' : isStoreItemArray (JSValue.array elems) with
  | false => rfl
  | true =>
      obtain ⟨es, hes, -, -, hnodup⟩ := (hiff _).mp h'
      have hesl : elems = es := JSValue.array.inj hes
      subst hesl
      exact absurd hnodup hnd

theorem isStoreItemArray_spec_witness :
    isStoreItem (JSValue.object
      [("id", JSValue.number (JSNum.fin 1)), ("name", JSValue.string "Book"),
       ("price", JSValue.number (JSNum.fin 1)), ("imgUrl", JSValue.string "/a.png")]) = true ∧
    isStoreItemArray (JSValue.array
      [JSValue.object
        [("id", JSValue.number (JSNum.fin 1)), ("name", JSValue.string "Book"),
         ("price", JSValue.number (JSNum.fin 1)), ("imgUrl", JSValue.string "/a.png")],
       JSValue.object
        [("id", JSValue.number (JSNum.fin 1)), ("name", JSValue.string "Book"),
         ("price", JSValue.number (JSNum.fin 1)), ("imgUrl", JSValue.string "/a.png")]]) =
      false :=
  ⟨by decide,
    isStoreItemArray_spec.2.1
      [JSValue.object
        [("id", JSValue.number (JSNum.fin 1)), ("name", JSValue.string "Book"),
         ("price", JSValue.number (JSNum.fin 1)), ("imgUrl", JSValue.string "/a.png")],
       JSValue.object
        [("id", JSValue.number (JSNum.fin 1)), ("name", JSValue.string "Book"),
         ("price", JSValue.number (JSNum.fin 1)), ("imgUrl", JSValue.string "/a.png")]]
      (by decide)⟩

/-- C7: on the persisted-cart read path (type guard `isCartItemArray`), a
stored string whose parse succeeds but whose parsed value fails the guard
yields the caller-supplied initial value, and both exception sources (a
throwing parse, a throwing storage read) are caught and also yield the
initial value; the read is a total function into values, so no exception
escapes it. -/
theorem useLocalStorageRead_fallback
    (parse : String → Except String JSValue) (initialValue : InitialValue)
    (s : String) :
    (∀ parsed, parse s = Except.ok parsed → isCartItemArray parsed = false →
      useLocalStorageRead (.value s) parse (some isCartItemArray) initialValue =
        resolveInitial initialValue) ∧
    (∀ e, parse s = Except.error e →
      useLocalStorageRead (.value s) parse (some isCartItemArray) initialValue =
        resolveInitial initialValue) ∧
    (∀ e, useLocalStorageRead (.throws e) parse (some isCartItemArray) initialValue =
        resolveInitial initialValue) := by
  refine ⟨fun parsed hok hbad => ?_, fun e herr => ?_, fun e => rfl⟩
  · simp [useLocalStorageRead, hok, hbad]
  · simp [useLocalStorageRead, herr]

theorem useLocalStorageRead_fallback_witness :
    isCartItemArray (JSValue.object [("not", JSValue.string "an array")]) = false ∧
    useLocalStorageRead (.value "\x7b\"not\":\"an array\"\x7d")
      (fun _ => Except.ok (JSValue.object [("not", JSValue.string "an array")]))
      (some isCartItemArray) (InitialValue.val (JSValue.array [])) = JSValue.array [] :=
  ⟨rfl,
    (useLocalStorageRead_fallback
        (fun _ => Except.ok (JSValue.object [("not", JSValue.string "an array")]))
        (InitialValue.val (JSValue.array []))
        "\x7b\"not\":\"an array\"\x7d").1
      (JSValue.object [("not", JSValue.string "an array")]) rfl rfl⟩

end ShopCart
